import Mathlib

/-!
Verification of the moneytrans ledger against its specification.

The embedding covers:
* the GET handler of `src/app/api/entries/route.ts` (running-balance fold),
* the POST handler of the same file and the PUT/DELETE handlers of
  `src/app/api/entries/[id]/route.ts` (validation, coercion, store mutation),
* `handleSearch`, `exportToCSV`, `shareViaWhatsApp` and `formatDate` of
  `src/components/account-statement.tsx` (filtering and statement formatting).

JavaScript request-body values are modelled by `JSVal`; numbers are modelled
as `Int` (the claims under study only involve integral amounts), with `none`
of `Option Int` standing for `NaN`/`undefined` where the distinction matters.
String computations are carried out on `String.data` (`List Char`) so that
all definitions evaluate by `decide`.
-/

namespace MoneyTrans

/-- A JSON/JavaScript value as it appears in a parsed request body.
`vUndef` models an absent field (JavaScript `undefined`). -/
inductive JSVal where
  | vUndef : JSVal
  | vNull : JSVal
  | vBool : Bool → JSVal
  | vNum : Int → JSVal
  | vStr : String → JSVal
deriving DecidableEq

/-- JavaScript truthiness of a value: `undefined`, `null`, `false`, `0` and
`""` are falsy, everything else (among the modelled values) is truthy. -/
def truthy : JSVal → Bool
  | .vUndef => false
  | .vNull => false
  | .vBool b => b
  | .vNum n => n != 0
  | .vStr s => s.data != []

/-- Accumulate decimal digits; fails on a non-digit character. -/
def parseDigitsAux (acc : Nat) : List Char → Option Nat
  | [] => some acc
  | c :: cs => if c.isDigit then parseDigitsAux (acc * 10 + (c.toNat - 48)) cs else none

/-- Parse an optionally-signed decimal integer; `none` on failure. -/
def parseDecInt : List Char → Option Int
  | [] => none
  | '-' :: c :: cs => (parseDigitsAux 0 (c :: cs)).map (fun n => -(n : Int))
  | cs => (parseDigitsAux 0 cs).map (fun n => (n : Int))

/-- Drop leading and trailing spaces, as JavaScript `Number` does before
parsing a string. -/
def trimSpaces (cs : List Char) : List Char :=
  ((cs.dropWhile (fun c => c = ' ')).reverse.dropWhile (fun c => c = ' ')).reverse

/-- JavaScript `Number(v)` on the modelled values, restricted to integral
results: `none` stands for `NaN`. `Number(undefined) = NaN`,
`Number(null) = 0`, booleans map to `0`/`1`, a whitespace-only string maps
to `0`, and other strings are parsed as decimal integers. -/
def jsToNumber : JSVal → Option Int
  | .vUndef => none
  | .vNull => some 0
  | .vBool b => some (if b then 1 else 0)
  | .vNum n => some n
  | .vStr s =>
      match trimSpaces s.data with
      | [] => some 0
      | cs => parseDecInt cs

/-- The coercion `Number(v) || 0` used by POST and PUT: `NaN` (and `0`
itself) collapse to `0`, every other numeric value is kept. -/
def coerceNum (v : JSVal) : Int := (jsToNumber v).getD 0

/-- An entry document of the `entries` collection as consumed by the GET
handler, matching the `AccountEntry` interface of
`src/app/api/entries/route.ts` (the derived `balance` field excluded). -/
structure AccountEntry where
  id : String
  date : String
  particulars : String
  debitCountry : Int
  debit : Int
  creditCountry : Int
  credit : Int
deriving DecidableEq

/-- The running-balance loop of the GET handler (lines 25–34 of
`src/app/api/entries/route.ts`): `runningBalance = runningBalance +
entry.credit - entry.debit`, attached to each entry in order. The pair's
second component is the attached `balance`. -/
def processEntriesAux (runningBalance : Int) : List AccountEntry → List (AccountEntry × Int)
  | [] => []
  | e :: es =>
      let rb := runningBalance + e.credit - e.debit
      (e, rb) :: processEntriesAux rb es

/-- The GET handler's balance annotation, seeded at 0. -/
def processEntries (es : List AccountEntry) : List (AccountEntry × Int) :=
  processEntriesAux 0 es

/-- Lexicographic order on character lists, the order JavaScript uses to
compare the `YYYY-MM-DD` date strings. -/
def lexLe : List Char → List Char → Bool
  | [], _ => true
  | _ :: _, [] => false
  | a :: as, b :: bs => if a = b then lexLe as bs else decide (a < b)

/-- Ascending-by-date sortedness of an entry sequence (adjacent pairs in
order), as guaranteed by the store's `sort({ date: 1 })`. -/
def sortedByDate : List AccountEntry → Bool
  | [] => true
  | [_] => true
  | a :: b :: rest => lexLe a.date.data b.date.data && sortedByDate (b :: rest)

theorem processEntriesAux_length (b : Int) (es : List AccountEntry) :
    (processEntriesAux b es).length = es.length := by
  induction es generalizing b with
  | nil => rfl
  | cons e es ih => simp [processEntriesAux, ih]

theorem processEntriesAux_get (es : List AccountEntry) (b : Int) (i : Nat)
    (hi : i < (processEntriesAux b es).length) :
    ((processEntriesAux b es).get ⟨i, hi⟩).2
      = b + (((es.take (i + 1)).map (fun e => e.credit - e.debit)).sum) := by
  induction es generalizing b i with
  | nil => simp [processEntriesAux] at hi
  | cons e es ih =>
      cases i with
      | zero => simp [processEntriesAux]; ring
      | succ n =>
          have hn : n < (processEntriesAux (b + e.credit - e.debit) es).length := by
            simpa [processEntriesAux] using hi
          have h2 := ih (b + e.credit - e.debit) n hn
          show ((processEntriesAux (b + e.credit - e.debit) es).get ⟨n, hn⟩).2 = _
          rw [h2, List.take_succ_cons, List.map_cons, List.sum_cons]
          ring

/-- C1: for a date-sorted sequence, the GET handler assigns to the entry at
position `i` a balance equal to the sum of `credit - debit` over positions
`0..i`: the balance is the strict left fold of `credit - debit` seeded
at 0. -/
theorem getBalance_prefix_sum (es : List AccountEntry) (hsorted : sortedByDate es = true)
    (i : Nat) (hi : i < (processEntries es).length) :
    ((processEntries es).get ⟨i, hi⟩).2
      = (((es.take (i + 1)).map (fun e => e.credit - e.debit)).sum) := by
  have := processEntriesAux_get es 0 i hi
  simpa [processEntries] using this

/-- The first demo entry of the spec's scenario (credit 100). -/
def aliceRaw : AccountEntry :=
  { id := "1", date := "2024-01-01", particulars := "Alice",
    debitCountry := 0, debit := 0, creditCountry := 0, credit := 100 }

/-- The second demo entry of the spec's scenario (debit 40). -/
def bobRaw : AccountEntry :=
  { id := "2", date := "2024-01-02", particulars := "Bob",
    debitCountry := 0, debit := 40, creditCountry := 0, credit := 0 }

theorem getBalance_prefix_sum_witness :
    ((processEntries [aliceRaw, bobRaw]).get ⟨0, by decide⟩).2 = 100
      ∧ ((processEntries [aliceRaw, bobRaw]).get ⟨1, by decide⟩).2 = 60 :=
  ⟨(getBalance_prefix_sum [aliceRaw, bobRaw] (by decide) 0 (by decide)).trans (by decide),
   (getBalance_prefix_sum [aliceRaw, bobRaw] (by decide) 1 (by decide)).trans (by decide)⟩

/-- A raw document of the schemaless `entries` collection as the GET handler
reads it back: each amount field may be absent, `none` modelling a missing
(`undefined`) value. Fields other than `credit`/`debit` play no role in the
balance computation and are omitted. -/
structure RawDoc where
  credit : Option Int
  debit : Option Int
deriving DecidableEq

/-- JavaScript `+` on possibly-`NaN` numbers: `undefined`/`NaN` operands
produce `NaN` (`none`). -/
def jsAdd : Option Int → Option Int → Option Int
  | some a, some b => some (a + b)
  | _, _ => none

/-- JavaScript `-` on possibly-`NaN` numbers. -/
def jsSub : Option Int → Option Int → Option Int
  | some a, some b => some (a - b)
  | _, _ => none

/-- The GET handler's balance loop on raw documents with JavaScript number
semantics: `runningBalance + entry.credit - entry.debit`, where a missing
amount makes the result `NaN` (the handler has no `|| 0` guard). Returns
the list of attached balances. -/
def balancesJSAux (rb : Option Int) : List RawDoc → List (Option Int)
  | [] => []
  | d :: ds =>
      let rb2 := jsSub (jsAdd rb d.credit) d.debit
      rb2 :: balancesJSAux rb2 ds

/-- The balances the GET handler attaches, seeded at 0. -/
def balancesJS (ds : List RawDoc) : List (Option Int) := balancesJSAux (some 0) ds

/-- Replace missing amounts by 0, the substitution the claim says the
computation performs. -/
def zeroFill (d : RawDoc) : RawDoc :=
  { credit := some (d.credit.getD 0), debit := some (d.debit.getD 0) }

/-- C2 counterexample: a document whose `credit` is missing gets balance
`NaN` (`none`), not the balance obtained by substituting 0 — the balances
differ, refuting the missing-as-0 claim at a concrete input. -/
theorem balancesJS_missing_ne_zeroFill :
    balancesJS [RawDoc.mk none (some 0)]
        ≠ balancesJS ([RawDoc.mk none (some 0)].map zeroFill)
      ∧ balancesJS [RawDoc.mk none (some 0)] = [none]
      ∧ balancesJS ([RawDoc.mk none (some 0)].map zeroFill) = [some 0] := by
  decide

theorem jsAdd_none_left (x : Option Int) : jsAdd none x = none := by
  cases x <;> rfl

theorem jsSub_none_left (x : Option Int) : jsSub none x = none := by
  cases x <;> rfl

theorem balancesJSAux_length (rb : Option Int) (ds : List RawDoc) :
    (balancesJSAux rb ds).length = ds.length := by
  induction ds generalizing rb with
  | nil => rfl
  | cons d ds ih => simp [balancesJSAux, ih]

/-- C2 amended: the balance computation is total (one balance per document,
never an error), but a missing amount is not treated as 0: once the running
balance is `NaN` every remaining balance is `NaN`, and only when every
amount is present are the balances unchanged by the substitute-0 reading. -/
theorem balancesJS_total_nan_propagates (ds : List RawDoc) :
    (balancesJS ds).length = ds.length
      ∧ balancesJSAux none ds = List.replicate ds.length none
      ∧ ((∀ d ∈ ds, d.credit.isSome ∧ d.debit.isSome) →
          balancesJS ds = balancesJS (ds.map zeroFill)) := by
  refine ⟨balancesJSAux_length (some 0) ds, ?_, ?_⟩
  · induction ds with
    | nil => rfl
    | cons d ds ih =>
        simp [balancesJSAux, jsAdd_none_left, jsSub_none_left, List.replicate, ih]
  · intro hall
    have hmap : ∀ l : List RawDoc,
        (∀ d ∈ l, d.credit.isSome ∧ d.debit.isSome) → l.map zeroFill = l := by
      intro l
      induction l with
      | nil => intro _; rfl
      | cons d t ih =>
          intro h
          have hd := h d (by simp)
          have ht := ih (fun x hx => h x (by simp [hx]))
          cases d with
          | mk c b =>
              cases c with
              | none => simp at hd
              | some cv =>
                  cases b with
                  | none => simp at hd
                  | some bv => simp [zeroFill, ht]
    rw [hmap ds hall]

theorem balancesJS_total_nan_propagates_witness :
    (balancesJS [RawDoc.mk (some 100) (some 0)]).length = 1
      ∧ balancesJS [RawDoc.mk (some 100) (some 0)]
          = balancesJS ([RawDoc.mk (some 100) (some 0)].map zeroFill) := by
  have h := balancesJS_total_nan_propagates [RawDoc.mk (some 100) (some 0)]
  exact ⟨by simpa using h.1, h.2.2 (by decide)⟩

/-- A parsed request body as destructured by the POST and PUT handlers:
`const { date, particulars, debitCountry, debit, creditCountry, credit } =
body`. -/
structure RequestBody where
  date : JSVal
  particulars : JSVal
  debitCountry : JSVal
  debit : JSVal
  creditCountry : JSVal
  credit : JSVal
deriving DecidableEq

/-- The validation both handlers run before touching the store:
`if (!particulars || (!debit && !credit))` — JavaScript truthiness of the
raw body values, before any numeric coercion. -/
def missingRequired (body : RequestBody) : Bool :=
  !truthy body.particulars || (!truthy body.debit && !truthy body.credit)

/-- A persisted document of the `entries` collection, as POST builds it
(lines 54–63 of `src/app/api/entries/route.ts`): `date` and `particulars`
are stored as received, the four amounts as `Number(x) || 0`; timestamps
are abstracted as opaque strings. `id` is the store-assigned `_id`. -/
structure StoredEntry where
  id : String
  date : JSVal
  particulars : JSVal
  debitCountry : Int
  debit : Int
  creditCountry : Int
  credit : Int
  createdAt : String
  updatedAt : String
deriving DecidableEq

/-- The POST handler: reject with 400 before any store access when required
fields are missing, otherwise insert the coerced record (`insertOne`
appends; the store assigns `newId`) and answer 201. Result is
(status, store after the request). -/
def POSTentry (newId now : String) (body : RequestBody) (store : List StoredEntry) :
    Nat × List StoredEntry :=
  if missingRequired body then (400, store)
  else
    (201, store ++
      [{ id := newId, date := body.date, particulars := body.particulars,
         debitCountry := coerceNum body.debitCountry, debit := coerceNum body.debit,
         creditCountry := coerceNum body.creditCountry, credit := coerceNum body.credit,
         createdAt := now, updatedAt := now }])

/-- The `$set updateData` document of the PUT handler applied to a matched
entry: every replaceable field is overwritten, `id` and `createdAt` are
untouched. -/
def applySet (body : RequestBody) (now : String) (e : StoredEntry) : StoredEntry :=
  { e with
    date := body.date, particulars := body.particulars,
    debitCountry := coerceNum body.debitCountry, debit := coerceNum body.debit,
    creditCountry := coerceNum body.creditCountry, credit := coerceNum body.credit,
    updatedAt := now }

/-- Mongo `updateOne`: update the first document matching the `_id`. -/
def updateFirst (i : String) (body : RequestBody) (now : String) :
    List StoredEntry → List StoredEntry
  | [] => []
  | e :: es =>
      if e.id = i then applySet body now e :: es else e :: updateFirst i body now es

/-- The PUT handler: validate, then `updateOne`; `matchedCount === 0`
yields 404, otherwise 200. -/
def PUTentry (i now : String) (body : RequestBody) (store : List StoredEntry) :
    Nat × List StoredEntry :=
  if missingRequired body then (400, store)
  else if store.any (fun e => e.id = i) then (200, updateFirst i body now store)
  else (404, store)

/-- Mongo `deleteOne`: remove the first document matching the `_id`. -/
def deleteFirst (i : String) : List StoredEntry → List StoredEntry
  | [] => []
  | e :: es => if e.id = i then es else e :: deleteFirst i es

/-- The DELETE handler: `deleteOne`; `deletedCount === 0` yields 404,
otherwise 200. -/
def DELETEentry (i : String) (store : List StoredEntry) : Nat × List StoredEntry :=
  if store.any (fun e => e.id = i) then (200, deleteFirst i store) else (404, store)

/-- A falsy body value coerces to 0 under `Number(x) || 0`. -/
theorem truthy_false_coerceNum (v : JSVal) (h : truthy v = false) : coerceNum v = 0 := by
  cases v with
  | vUndef => rfl
  | vNull => rfl
  | vBool b => simp [truthy] at h; simp [coerceNum, jsToNumber, h]
  | vNum n => simp [truthy] at h; simp [coerceNum, jsToNumber, h]
  | vStr s =>
      have hd : s.data = [] := by simpa [truthy] using h
      simp [coerceNum, jsToNumber, trimSpaces, hd]

/-- C3 counterexample: the body with `particulars: "x"`, `debit: "0"`,
`credit: "0"` has both amounts equal to 0 after numeric coercion, yet POST
does not reject it — the truthiness check runs on the raw strings, and
`"0"` is truthy. -/
theorem validation_checks_raw_not_coerced :
    (coerceNum (JSVal.vStr "0") = 0
        ∧ truthy (JSVal.vStr "x") = true)
      ∧ (POSTentry "id1" "t0"
          { date := JSVal.vStr "2024-01-01", particulars := JSVal.vStr "x",
            debitCountry := JSVal.vNum 0, debit := JSVal.vStr "0",
            creditCountry := JSVal.vNum 0, credit := JSVal.vStr "0" } []).1 ≠ 400 := by
  decide

/-- C3 amended: POST and PUT reject with 400 exactly when `particulars` is
falsy or both raw `debit` and `credit` values are falsy — a check on the
uncoerced body. Rejection happens before any store access (the store is
unchanged) and implies that both amounts would have coerced to 0; but a
request whose amounts merely coerce to 0 (such as the string `"0"`) is not
rejected. An accepted POST answers 201. -/
theorem validation_rejects_before_store (newId now i : String) (body : RequestBody)
    (store : List StoredEntry) :
    ((POSTentry newId now body store).1 = 400 ↔ missingRequired body = true)
      ∧ ((PUTentry i now body store).1 = 400 ↔ missingRequired body = true)
      ∧ (missingRequired body = true →
          (POSTentry newId now body store).2 = store
            ∧ (PUTentry i now body store).2 = store
            ∧ (truthy body.particulars = false
                ∨ (coerceNum body.debit = 0 ∧ coerceNum body.credit = 0)))
      ∧ (missingRequired body = false → (POSTentry newId now body store).1 = 201) := by
  refine ⟨?_, ?_, ?_, ?_⟩
  · constructor
    · intro h
      by_contra hm
      simp [POSTentry, hm] at h
    · intro h; simp [POSTentry, h]
  · constructor
    · intro h
      by_contra hm
      rw [Bool.not_eq_true] at hm
      by_cases ha : store.any (fun e => e.id = i) = true <;>
        simp [PUTentry, hm, ha] at h
    · intro h; simp [PUTentry, h]
  · intro h
    refine ⟨by simp [POSTentry, h], by simp [PUTentry, h], ?_⟩
    have hor : truthy body.particulars = false
        ∨ (truthy body.debit = false ∧ truthy body.credit = false) := by
      simpa [missingRequired, Bool.or_eq_true, Bool.and_eq_true] using h
    rcases hor with hp | ⟨hd, hc⟩
    · exact Or.inl hp
    · exact Or.inr ⟨truthy_false_coerceNum _ hd, truthy_false_coerceNum _ hc⟩
  · intro h; simp [POSTentry, h]

theorem validation_rejects_before_store_witness :
    missingRequired
        { date := JSVal.vStr "2024-01-01", particulars := JSVal.vStr "",
          debitCountry := JSVal.vNum 0, debit := JSVal.vNum 5,
          creditCountry := JSVal.vNum 0, credit := JSVal.vNum 0 } = true
      ∧ (POSTentry "id1" "t0"
          { date := JSVal.vStr "2024-01-01", particulars := JSVal.vStr "",
            debitCountry := JSVal.vNum 0, debit := JSVal.vNum 5,
            creditCountry := JSVal.vNum 0, credit := JSVal.vNum 0 } []).2 = [] := by
  have h := validation_rejects_before_store "id1" "t0" "x"
    { date := JSVal.vStr "2024-01-01", particulars := JSVal.vStr "",
      debitCountry := JSVal.vNum 0, debit := JSVal.vNum 5,
      creditCountry := JSVal.vNum 0, credit := JSVal.vNum 0 } []
  exact ⟨by decide, (h.2.2.1 (by decide)).1⟩

theorem map_applySet_untouched (i now : String) (body : RequestBody)
    (es : List StoredEntry) (h : ∀ x ∈ es, x.id ≠ i) :
    es.map (fun e => if e.id = i then applySet body now e else e) = es := by
  induction es with
  | nil => rfl
  | cons e t ih =>
      have he := h e (by simp)
      simp [he, ih (fun x hx => h x (by simp [hx]))]

/-- Under unique ids, Mongo's first-match `updateOne` coincides with mapping
the conditional update over the whole store: only the matched entry
changes. -/
theorem updateFirst_eq_map (i now : String) (body : RequestBody)
    (store : List StoredEntry) (hnodup : (store.map StoredEntry.id).Nodup) :
    updateFirst i body now store
      = store.map (fun e => if e.id = i then applySet body now e else e) := by
  induction store with
  | nil => rfl
  | cons e es ih =>
      obtain ⟨hnotin, hrest⟩ :
          (∀ x ∈ es, ¬ x.id = e.id) ∧ (es.map StoredEntry.id).Nodup := by
        simpa using hnodup
      by_cases he : e.id = i
      · have huntouched : ∀ x ∈ es, x.id ≠ i := by
          intro x hx hxi
          exact hnotin x hx (hxi.trans he.symm)
        have hm := map_applySet_untouched i now body es huntouched
        simp [updateFirst, he, hm]
      · simp [updateFirst, he, ih hrest]

/-- Under unique ids, Mongo's first-match `deleteOne` coincides with
filtering out the matched id: only the matched entry is removed. -/
theorem deleteFirst_eq_filter (i : String) (store : List StoredEntry)
    (hnodup : (store.map StoredEntry.id).Nodup) :
    deleteFirst i store = store.filter (fun e => e.id != i) := by
  induction store with
  | nil => rfl
  | cons e es ih =>
      obtain ⟨hnotin, hrest⟩ :
          (∀ x ∈ es, ¬ x.id = e.id) ∧ (es.map StoredEntry.id).Nodup := by
        simpa using hnodup
      by_cases he : e.id = i
      · have huntouched : ∀ x ∈ es, (x.id != i) = true := by
          intro x hx
          simp only [bne_iff_ne, ne_eq]
          intro hxi
          exact hnotin x hx (hxi.trans he.symm)
        simp [deleteFirst, he, List.filter_eq_self.mpr huntouched]
      · simp [deleteFirst, he, ih hrest]

/-- C8 counterexample: a PUT whose body fails validation is answered 400
even when no stored entry has the requested id, so "404 if and only if the
id is unknown" fails as stated. -/
theorem put_invalid_body_is_400_not_404 :
    (∀ e ∈ ([] : List StoredEntry), e.id ≠ "x")
      ∧ (PUTentry "x" "t0"
          { date := JSVal.vStr "2024-01-01", particulars := JSVal.vStr "",
            debitCountry := JSVal.vNum 0, debit := JSVal.vNum 5,
            creditCountry := JSVal.vNum 0, credit := JSVal.vNum 0 } []).1 = 400 := by
  exact ⟨by simp, by decide⟩

/-- C8 amended: for a PUT whose body passes validation, and for every
DELETE, the response is 404 exactly when no stored entry carries the id,
and a 404 leaves the store unchanged; when the id is present (ids being
unique) the operation answers 200 and affects exactly the matched entry —
PUT rewrites it via `$set`, DELETE removes it, all other entries are kept
as they are. -/
theorem put_delete_not_found (i now : String) (body : RequestBody)
    (store : List StoredEntry) (hvalid : missingRequired body = false)
    (hnodup : (store.map StoredEntry.id).Nodup) :
    ((PUTentry i now body store).1 = 404 ↔ ∀ e ∈ store, e.id ≠ i)
      ∧ ((PUTentry i now body store).1 = 404 → (PUTentry i now body store).2 = store)
      ∧ ((∃ e ∈ store, e.id = i) →
          (PUTentry i now body store).1 = 200
            ∧ (PUTentry i now body store).2
                = store.map (fun e => if e.id = i then applySet body now e else e))
      ∧ ((DELETEentry i store).1 = 404 ↔ ∀ e ∈ store, e.id ≠ i)
      ∧ ((DELETEentry i store).1 = 404 → (DELETEentry i store).2 = store)
      ∧ ((∃ e ∈ store, e.id = i) →
          (DELETEentry i store).1 = 200
            ∧ (DELETEentry i store).2 = store.filter (fun e => e.id != i)) := by
  by_cases ha : store.any (fun e => e.id = i) = true
  · have hnall : ¬ ∀ e ∈ store, e.id ≠ i := by
      obtain ⟨w, hw, hwi⟩ : ∃ e ∈ store, e.id = i := by simpa using ha
      exact fun hall => hall w hw hwi
    refine ⟨?_, ?_, ?_, ?_, ?_, ?_⟩
    · simp [PUTentry, hvalid, ha, hnall]
    · intro h; simp [PUTentry, hvalid, ha] at h
    · intro _
      exact ⟨by simp [PUTentry, hvalid, ha],
        by simp [PUTentry, hvalid, ha, updateFirst_eq_map i now body store hnodup]⟩
    · simp [DELETEentry, ha, hnall]
    · intro h; simp [DELETEentry, ha] at h
    · intro _
      exact ⟨by simp [DELETEentry, ha],
        by simp [DELETEentry, ha, deleteFirst_eq_filter i store hnodup]⟩
  · have hall : ∀ e ∈ store, e.id ≠ i := by
      intro e he hei
      exact ha (by simp; exact ⟨e, he, hei⟩)
    have hnex : ¬ ∃ e ∈ store, e.id = i := by
      rintro ⟨w, hw, hwi⟩
      exact hall w hw hwi
    rw [Bool.not_eq_true] at ha
    refine ⟨?_, ?_, ?_, ?_, ?_, ?_⟩
    · simp [PUTentry, hvalid, ha]
      exact fun e he => hall e he
    · intro _; simp [PUTentry, hvalid, ha]
    · exact fun hex => absurd hex hnex
    · simp [DELETEentry, ha]
      exact fun e he => hall e he
    · intro _; simp [DELETEentry, ha]
    · exact fun hex => absurd hex hnex

/-- A valid request body used to exercise the not-found theorem. -/
def goodBody : RequestBody :=
  { date := JSVal.vStr "2024-01-03", particulars := JSVal.vStr "Carol",
    debitCountry := JSVal.vNum 0, debit := JSVal.vNum 7,
    creditCountry := JSVal.vNum 0, credit := JSVal.vNum 0 }

/-- A stored entry with id "a" used to exercise the not-found theorem. -/
def storedA : StoredEntry :=
  { id := "a", date := JSVal.vStr "2024-01-01", particulars := JSVal.vStr "Alice",
    debitCountry := 0, debit := 0, creditCountry := 0, credit := 100,
    createdAt := "t0", updatedAt := "t0" }

theorem put_delete_not_found_witness :
    (PUTentry "a" "t1" goodBody [storedA]).1 = 200
      ∧ (DELETEentry "a" [storedA]).1 = 200
      ∧ (PUTentry "b" "t1" goodBody [storedA]).1 = 404 := by
  have h := put_delete_not_found "a" "t1" goodBody [storedA] (by decide) (by decide)
  have hb := put_delete_not_found "b" "t1" goodBody [storedA] (by decide) (by decide)
  exact ⟨(h.2.2.1 (by decide)).1, (h.2.2.2.2.2 (by decide)).1,
    hb.1.mpr (by decide)⟩

/-- The document literal POST inserts (lines 54–63 of
`src/app/api/entries/route.ts`), as the field-name/value pairs of the
object, in source order. -/
def newEntryRecord (body : RequestBody) (now : String) : List (String × JSVal) :=
  [("date", body.date), ("particulars", body.particulars),
   ("debitCountry", JSVal.vNum (coerceNum body.debitCountry)),
   ("debit", JSVal.vNum (coerceNum body.debit)),
   ("creditCountry", JSVal.vNum (coerceNum body.creditCountry)),
   ("credit", JSVal.vNum (coerceNum body.credit)),
   ("createdAt", JSVal.vStr now), ("updatedAt", JSVal.vStr now)]

/-- The `updateData` object the PUT handler passes to `$set` (lines 17–25 of
`src/app/api/entries/[id]/route.ts`), as field-name/value pairs in source
order. -/
def updateDataRecord (body : RequestBody) (now : String) : List (String × JSVal) :=
  [("date", body.date), ("particulars", body.particulars),
   ("debitCountry", JSVal.vNum (coerceNum body.debitCountry)),
   ("debit", JSVal.vNum (coerceNum body.debit)),
   ("creditCountry", JSVal.vNum (coerceNum body.creditCountry)),
   ("credit", JSVal.vNum (coerceNum body.credit)),
   ("updatedAt", JSVal.vStr now)]

/-- C6: no mutating operation writes a `balance` field — neither the record
POST persists nor the field set PUT applies mentions `balance`, whatever
the request body; the balance the client sees is the one attached on read
by `processEntries`. -/
theorem no_balance_persisted (body : RequestBody) (now : String) :
    "balance" ∉ (newEntryRecord body now).map Prod.fst
      ∧ "balance" ∉ (updateDataRecord body now).map Prod.fst := by
  constructor <;> simp [newEntryRecord, updateDataRecord]

/-- An entry as held by the statement component, matching the
`AccountEntry` interface of `src/components/account-statement.tsx`
(lines 12–21), balance included. -/
structure StatementEntry where
  id : String
  date : String
  particulars : String
  debitCountry : Int
  debit : Int
  creditCountry : Int
  credit : Int
  balance : Int
deriving DecidableEq

/-- Prefix test on character lists. -/
def isPrefixL : List Char → List Char → Bool
  | [], _ => true
  | _ :: _, [] => false
  | a :: as, b :: bs => a = b && isPrefixL as bs

/-- JavaScript `String.prototype.includes`: the needle occurs contiguously
in the haystack. -/
def isSubL (needle : List Char) : List Char → Bool
  | [] => isPrefixL needle []
  | c :: rest => isPrefixL needle (c :: rest) || isSubL needle rest

/-- Lower-case a string's characters, as `toLowerCase()` does. -/
def lowerL (s : String) : List Char := s.data.map Char.toLower

/-- JavaScript string truthiness. -/
def strTruthy (s : String) : Bool := s.data != []

/-- The text criterion of `handleSearch`:
`entry.particulars.toLowerCase().includes(filters.particulars.toLowerCase())`. -/
def textPred (q : String) (e : StatementEntry) : Bool :=
  isSubL (lowerL q) (lowerL e.particulars)

/-- The export filter specification held in component state. -/
structure ExportFilters where
  particulars : String
  startDate : String
  endDate : String
deriving DecidableEq

/-- `handleSearch` (lines 207–225 of `src/components/account-statement.tsx`):
three conditional passes of `Array.filter` over a copy of `entries`, each
guarded by the truthiness of its criterion. -/
def handleSearch (f : ExportFilters) (entries : List StatementEntry) :
    List StatementEntry :=
  let filtered := entries
  let filtered :=
    if strTruthy f.particulars then filtered.filter (textPred f.particulars)
    else filtered
  let filtered :=
    if strTruthy f.startDate then
      filtered.filter (fun e => lexLe f.startDate.data e.date.data)
    else filtered
  let filtered :=
    if strTruthy f.endDate then
      filtered.filter (fun e => lexLe e.date.data f.endDate.data)
    else filtered
  filtered

/-- The conjunction of the three criteria, an absent (falsy) criterion
counting as satisfied. -/
def matchesSpec (f : ExportFilters) (e : StatementEntry) : Bool :=
  (!strTruthy f.particulars || textPred f.particulars e)
    && (!strTruthy f.startDate || lexLe f.startDate.data e.date.data)
    && (!strTruthy f.endDate || lexLe e.date.data f.endDate.data)

/-- C4: `handleSearch` returns exactly the entries satisfying all present
criteria conjunctively — it equals a single filter by the conjunction, is a
subsequence of the input (hence a sub-multiset of ids in the original
relative order), and membership is membership in the input plus
satisfaction; the input itself is untouched (the embedding is pure, as is
the code, which filters a copy `[...entries]`). -/
theorem handleSearch_conjunctive (f : ExportFilters) (entries : List StatementEntry) :
    handleSearch f entries = entries.filter (matchesSpec f)
      ∧ (handleSearch f entries).Sublist entries
      ∧ ∀ e, e ∈ handleSearch f entries ↔ e ∈ entries ∧ matchesSpec f e = true := by
  have hmain : handleSearch f entries = entries.filter (matchesSpec f) := by
    unfold handleSearch matchesSpec
    by_cases hp : strTruthy f.particulars <;>
      by_cases hs : strTruthy f.startDate <;>
        by_cases he : strTruthy f.endDate <;>
          simp [hp, hs, he, List.filter_filter] <;>
            exact List.filter_congr
              (by intro x hx; simp [Bool.and_comm, Bool.and_assoc, Bool.and_left_comm])
  refine ⟨hmain, ?_, ?_⟩
  · rw [hmain]; exact List.filter_sublist entries
  · intro e
    rw [hmain]
    simp [List.mem_filter]

theorem isPrefixL_iff (n : List Char) : ∀ h, isPrefixL n h = true ↔ ∃ t, h = n ++ t := by
  induction n with
  | nil => intro h; simp [isPrefixL]
  | cons a as ih =>
      intro h
      cases h with
      | nil => simp [isPrefixL]
      | cons b bs =>
          simp only [isPrefixL, Bool.and_eq_true, decide_eq_true_eq, ih bs,
            List.cons_append, List.cons.injEq]
          constructor
          · rintro ⟨hab, t, ht⟩
            exact ⟨t, hab.symm, ht⟩
          · rintro ⟨t, hba, ht⟩
            exact ⟨hba.symm, t, ht⟩

/-- `isSubL` is exactly contiguous-substring occurrence. -/
theorem isSubL_iff (n h : List Char) : isSubL n h = true ↔ ∃ p t, h = p ++ (n ++ t) := by
  induction h with
  | nil =>
      simp only [isSubL, isPrefixL_iff]
      constructor
      · rintro ⟨t, ht⟩
        exact ⟨[], t, ht⟩
      · rintro ⟨p, t, hpt⟩
        cases p with
        | nil => exact ⟨t, by simpa using hpt⟩
        | cons c2 p2 => simp at hpt
  | cons c rest ih =>
      simp only [isSubL, Bool.or_eq_true, isPrefixL_iff, ih]
      constructor
      · rintro (⟨t, ht⟩ | ⟨p, t, hpt⟩)
        · exact ⟨[], t, by simpa using ht⟩
        · exact ⟨c :: p, t, by simp [hpt]⟩
      · rintro ⟨p, t, hpt⟩
        cases p with
        | nil => exact Or.inl ⟨t, by simpa using hpt⟩
        | cons c2 p2 =>
            simp only [List.cons_append, List.cons.injEq] at hpt
            exact Or.inr ⟨p2, t, hpt.2⟩

/-- A demo entry held by the component: Alice, credit 100, balance 100. -/
def aliceStmt : StatementEntry :=
  { id := "1", date := "2024-01-01", particulars := "Alice",
    debitCountry := 0, debit := 0, creditCountry := 0, credit := 100, balance := 100 }

/-- C5 counterexample: the whitespace-only query `" "` does not leave every
entry included — `handleSearch` only tests truthiness (no trimming), so the
query applies and excludes "Alice", whose particulars contain no space. -/
theorem whitespace_query_filters :
    handleSearch { particulars := " ", startDate := "", endDate := "" } [aliceStmt] = []
      ∧ trimSpaces (" " : String).data = [] := by
  decide

/-- C5 amended: the text criterion applies whenever the query is non-empty
(no trimming happens); when it applies, an entry matches exactly when the
lower-cased query occurs as a contiguous substring of the lower-cased
particulars — so a whitespace-only query applies and matches only entries
whose particulars contain that whitespace. -/
theorem text_filter_no_trim (q : String) (entries : List StatementEntry) :
    (q.data = [] → handleSearch { particulars := q, startDate := "", endDate := "" } entries = entries)
      ∧ (q.data ≠ [] →
          ∀ e, e ∈ handleSearch { particulars := q, startDate := "", endDate := "" } entries
            ↔ e ∈ entries ∧ ∃ p t, lowerL e.particulars = p ++ (lowerL q ++ t)) := by
  have hempty : strTruthy "" = false := by decide
  constructor
  · intro hq
    have hqf : strTruthy q = false := by simp [strTruthy, hq]
    simp [handleSearch, hqf, hempty]
  · intro hq e
    have hs : strTruthy q = true := by simpa [strTruthy] using hq
    simp [handleSearch, hs, hempty, List.mem_filter, textPred, isSubL_iff]

theorem text_filter_no_trim_witness :
    ("LI" : String).data ≠ []
      ∧ (aliceStmt ∈ handleSearch { particulars := "LI", startDate := "", endDate := "" } [aliceStmt]
          ↔ aliceStmt ∈ [aliceStmt]
              ∧ ∃ p t, lowerL aliceStmt.particulars = p ++ (lowerL "LI" ++ t)) :=
  ⟨by decide, (text_filter_no_trim "LI" [aliceStmt]).2 (by decide) aliceStmt⟩

/-- `entry.amount || "-"` as it ends up in the rendered output: a zero
(falsy) amount becomes the placeholder, any other amount its decimal
digits. -/
def renderAmt (n : Int) : String := if n = 0 then "-" else toString n

/-- The CSV header row (line 230 of `src/components/account-statement.tsx`). -/
def csvHeader : List String :=
  ["Date", "Particulars", "Debit Country", "Debit (Out)",
   "Credit Country", "Credit (In)", "Balance"]

/-- One CSV data row (lines 231–239): date and particulars verbatim, the
four amounts through the `|| "-"` placeholder, balance verbatim. -/
def csvRow (e : StatementEntry) : List String :=
  [e.date, e.particulars, renderAmt e.debitCountry, renderAmt e.debit,
   renderAmt e.creditCountry, renderAmt e.credit, toString e.balance]

/-- `Array.prototype.join(sep)`. -/
def joinSep (sep : String) : List String → String
  | [] => ""
  | [s] => s
  | s :: rest => s ++ sep ++ joinSep sep rest

/-- The fallback both exports share (lines 228 and 259):
`filteredEntries.length > 0 ? filteredEntries : entries`. -/
def dataToExport (filteredEntries entries : List StatementEntry) : List StatementEntry :=
  if filteredEntries.length > 0 then filteredEntries else entries

/-- The full CSV text `exportToCSV` builds: header row and data rows, each
comma-joined, then newline-joined. -/
def csvContent (filteredEntries entries : List StatementEntry) : String :=
  joinSep "\n" ((csvHeader :: (dataToExport filteredEntries entries).map csvRow).map (joinSep ","))

/-- The fragments of one share-text line (lines 263–266), in concatenation
order: the template-literal pieces and the interpolated values. -/
def shareFragments (e : StatementEntry) : List String :=
  [e.date, " | ", e.particulars, " | ",
   "Debit Country: ", renderAmt e.debitCountry, " | Debit: ", renderAmt e.debit, " | ",
   "Credit Country: ", renderAmt e.creditCountry, " | Credit: ", renderAmt e.credit, " | ",
   "Balance: ", toString e.balance, "\n"]

/-- Left-to-right string concatenation, as `+=` accumulates. -/
def concatAll (l : List String) : String := l.foldl (fun a b => a ++ b) ""

/-- One line of the WhatsApp share text. -/
def shareLine (e : StatementEntry) : String := concatAll (shareFragments e)

/-- The whole share message `shareViaWhatsApp` builds (lines 258–267). -/
def shareMessage (filteredEntries entries : List StatementEntry) : String :=
  "Account Statement:\n\n"
    ++ concatAll ((dataToExport filteredEntries entries).map shareLine)

/-- C7: in both output modes, an amount field that is zero (falsy) renders
as the placeholder "-", never as "0": positions 2–5 of a CSV row and the
interpolated fragments 5, 7, 10 and 12 of a share line. -/
theorem zero_renders_placeholder (e : StatementEntry) :
    (e.debitCountry = 0 →
        (csvRow e).get? 2 = some "-" ∧ (shareFragments e).get? 5 = some "-")
      ∧ (e.debit = 0 →
          (csvRow e).get? 3 = some "-" ∧ (shareFragments e).get? 7 = some "-")
      ∧ (e.creditCountry = 0 →
          (csvRow e).get? 4 = some "-" ∧ (shareFragments e).get? 10 = some "-")
      ∧ (e.credit = 0 →
          (csvRow e).get? 5 = some "-" ∧ (shareFragments e).get? 12 = some "-")
      ∧ renderAmt 0 = "-" ∧ renderAmt 0 ≠ "0" := by
  refine ⟨?_, ?_, ?_, ?_, by decide, by decide⟩ <;>
    (intro h; exact ⟨by simp [csvRow, renderAmt, h], by simp [shareFragments, renderAmt, h]⟩)

/-- An entry whose four amount fields are all zero. -/
def zeroEntry : StatementEntry :=
  { id := "z", date := "2024-02-02", particulars := "Zed",
    debitCountry := 0, debit := 0, creditCountry := 0, credit := 0, balance := 0 }

theorem zero_renders_placeholder_witness :
    (csvRow zeroEntry).get? 3 = some "-" ∧ (shareFragments zeroEntry).get? 7 = some "-" :=
  (zero_renders_placeholder zeroEntry).2.1 (by decide)

/-- The table views' date presentation (lines 282–284):
`new Date(s).toLocaleDateString("en-GB")`, modelled on canonical
`YYYY-MM-DD` input where it yields `DD/MM/YYYY`; a non-canonical input is
out of the claims' scope and returned unchanged. -/
def formatDate (s : String) : String :=
  match s.data with
  | [y1, y2, y3, y4, s1, m1, m2, s2, d1, d2] =>
      if s1 = '-' ∧ s2 = '-' then String.mk [d1, d2, '/', m1, m2, '/', y1, y2, y3, y4]
      else s
  | _ => s

/-- C9 counterexample: both export modes emit the canonical stored date
string itself — the CSV date cell and the first share fragment are exactly
`entry.date`, here "2024-01-01". -/
theorem date_emitted_raw :
    (csvRow aliceStmt).get? 0 = some "2024-01-01"
      ∧ aliceStmt.date = "2024-01-01"
      ∧ (shareFragments aliceStmt).get? 0 = some "2024-01-01" := by
  decide

/-- C9 amended: only the on-screen tables render dates through `formatDate`
(locale `en-GB`, `DD/MM/YYYY`, always distinct from a canonical
`YYYY-MM-DD` string); both export modes emit the canonical stored date
string unchanged as the presentation value. -/
theorem exports_emit_stored_date :
    (∀ e : StatementEntry,
        (csvRow e).get? 0 = some e.date ∧ (shareFragments e).get? 0 = some e.date)
      ∧ ∀ y1 y2 y3 y4 m1 m2 d1 d2 : Char, y3.isDigit = true →
          formatDate (String.mk [y1, y2, y3, y4, '-', m1, m2, '-', d1, d2])
            ≠ String.mk [y1, y2, y3, y4, '-', m1, m2, '-', d1, d2] := by
  constructor
  · intro e
    exact ⟨rfl, rfl⟩
  · intro y1 y2 y3 y4 m1 m2 d1 d2 hy3 hEq
    have hfd : formatDate (String.mk [y1, y2, y3, y4, '-', m1, m2, '-', d1, d2])
        = String.mk [d1, d2, '/', m1, m2, '/', y1, y2, y3, y4] := by
      simp [formatDate]
    rw [hfd] at hEq
    have hl : [d1, d2, '/', m1, m2, '/', y1, y2, y3, y4]
        = [y1, y2, y3, y4, '-', m1, m2, '-', d1, d2] := congrArg String.data hEq
    simp only [List.cons.injEq] at hl
    have h3 : ('/' : Char) = y3 := hl.2.2.1
    rw [← h3] at hy3
    exact absurd hy3 (by decide)

theorem exports_emit_stored_date_witness :
    formatDate "2024-01-01" ≠ "2024-01-01"
      ∧ (csvRow aliceStmt).get? 0 = some aliceStmt.date := by
  have hs : ("2024-01-01" : String)
      = String.mk ['2', '0', '2', '4', '-', '0', '1', '-', '0', '1'] := by decide
  constructor
  · rw [hs]
    exact exports_emit_stored_date.2 '2' '0' '2' '4' '0' '1' '0' '1' (by decide)
  · exact (exports_emit_stored_date.1 aliceStmt).1

/-- C10: when the filtered set is empty, both exports fall back to the full
entry list: the CSV text and the share message equal the ones produced from
the unfiltered list. -/
theorem empty_filter_exports_all (filteredEntries entries : List StatementEntry)
    (hemp : filteredEntries = []) :
    csvContent filteredEntries entries = csvContent entries entries
      ∧ shareMessage filteredEntries entries = shareMessage entries entries := by
  subst hemp
  have hsel : ∀ l : List StatementEntry, dataToExport l l = l := by
    intro l; cases l <;> simp [dataToExport]
  have h0 : dataToExport [] entries = entries := by simp [dataToExport]
  constructor
  · simp only [csvContent, h0, hsel]
  · simp only [shareMessage, h0, hsel]

theorem empty_filter_exports_all_witness :
    csvContent [] [aliceStmt] = csvContent [aliceStmt] [aliceStmt]
      ∧ shareMessage [] [aliceStmt] = shareMessage [aliceStmt] [aliceStmt] :=
  empty_filter_exports_all [] [aliceStmt] rfl

end MoneyTrans
